import Mathlib

/-!
SoundIsolationTester — verification of the Isolation Assessment & Scoring Engine.

Shallow embedding of the scoring engine of `SoundIsolationTester`
(`ai_analyzer.py`, `speech_recognizer.py`).  Python floats are modelled as
exact rationals (`ℚ`); every concrete counterexample below is chosen so that
the gap is far larger than any float rounding error.  Python strings are Lean
`String`s; `str.lower()` is modelled for the alphabets that actually occur in
this repository (ASCII letters plus the Cyrillic block of the Russian UI),
leaving all other characters unchanged.
-/

set_option maxRecDepth 8000
set_option maxHeartbeats 1600000

namespace SoundIsolationTester

/-- Python `str.lower()` on one character, for ASCII letters and the Cyrillic
block `А`–`Я` plus `Ё` (the alphabets used by this repository); every other
character is left unchanged. -/
def pyLowerChar (c : Char) : Char :=
  if 'A' ≤ c ∧ c ≤ 'Z' then Char.ofNat (c.toNat + 32)
  else if 'А' ≤ c ∧ c ≤ 'Я' then Char.ofNat (c.toNat + 32)
  else if c = 'Ё' then 'ё'
  else c

/-- Python `str.lower()` on a whole string. -/
def pyLower (s : String) : String := ⟨s.data.map pyLowerChar⟩

/-- List indexing `a[i]` for the in-range accesses performed by
`SequenceMatcher` (the default is never reached on those accesses). -/
def charAt (l : List Char) (i : ℕ) : Char := l.getD i ' '

/-- The ascending list of indices at which `c` occurs in `b` —
difflib's `b2j[c]` before the junk purge. -/
def occList (b : List Char) (c : Char) : List ℕ :=
  (List.range b.length).filter (fun j => decide (b.getD j ' ' = c ∧ j < b.length))

/-- difflib `b2j` lookup after the autojunk purge: when `b` has at least 200
elements, "popular" elements (more than `len(b) // 100 + 1` occurrences) are
dropped from the index.  `isjunk` is `None` at the call sites in the source,
so no other element is purged. -/
def b2jGet (b : List Char) (c : Char) : List ℕ :=
  let occ := occList b c
  if 200 ≤ b.length ∧ b.length / 100 + 1 < occ.length then [] else occ

/-- Inner loop of `find_longest_match` for one `i`: scan the (ascending)
occurrence indices `js` of `a[i]` in `b`, building the new run-length map and
updating the current best block.  Python reads `j2len.get(j-1, 0)` from the
*previous* row; the key `-1` (when `j = 0`) is always absent there, which the
`if j = 0` guard reproduces. -/
def innerFold (oldj2len : ℕ → ℕ) (i : ℕ) :
    List ℕ → (ℕ → ℕ) → ℕ × ℕ × ℕ → ((ℕ → ℕ) × (ℕ × ℕ × ℕ))
  | [], newj2len, best => (newj2len, best)
  | j :: js, newj2len, best =>
      let k := (if j = 0 then 0 else oldj2len (j - 1)) + 1
      let newj2len' := fun j' => if j' = j then k else newj2len j'
      let best' := if best.2.2 < k then (i + 1 - k, j + 1 - k, k) else best
      innerFold oldj2len i js newj2len' best'

/-- Outer loop of `find_longest_match` over `i ∈ [alo, ahi)`.  The Python
`continue`/`break` on `j < blo` / `j >= bhi` are equivalent to filtering the
ascending index list to `[blo, bhi)`. -/
def mainFold (a b : List Char) (blo bhi : ℕ) :
    List ℕ → (ℕ → ℕ) → ℕ × ℕ × ℕ → ℕ × ℕ × ℕ
  | [], _, best => best
  | i :: is, j2len, best =>
      let js := (b2jGet b (charAt a i)).filter (fun j => decide (blo ≤ j ∧ j < bhi))
      let (newj2len, best') := innerFold j2len i js (fun _ => 0) best
      mainFold a b blo bhi is newj2len best'

/-- Backward extension loop of `find_longest_match`
(`while besti > alo and bestj > blo and a[besti-1] == b[bestj-1]`),
counting the number of extension steps.  Structural on `besti`. -/
def extBack (a b : List Char) (alo blo : ℕ) : ℕ → ℕ → ℕ
  | i + 1, j + 1 =>
      if alo ≤ i ∧ blo ≤ j ∧ charAt a i = charAt b j then extBack a b alo blo i j + 1
      else 0
  | _, _ => 0

/-- Forward extension loop of `find_longest_match`
(`while besti+bestsize < ahi and ... a[...] == b[...]`), counting steps;
`fuel = ahi` always suffices since each step increases `i` and stops at
`i ≥ ahi`. -/
def extFwd (a b : List Char) (ahi bhi : ℕ) : ℕ → ℕ → ℕ → ℕ
  | _, _, 0 => 0
  | i, j, fuel + 1 =>
      if i < ahi ∧ j < bhi ∧ charAt a i = charAt b j then extFwd a b ahi bhi (i + 1) (j + 1) fuel + 1
      else 0

/-- difflib `SequenceMatcher.find_longest_match(alo, ahi, blo, bhi)` with
`isjunk = None` (as at every call site in the source): the two junk-extension
loops are no-ops because the junk set `bjunk` is empty then, so only the two
plain extension loops are modelled. -/
def find_longest_match (a b : List Char) (alo ahi blo bhi : ℕ) : ℕ × ℕ × ℕ :=
  let best := mainFold a b blo bhi (List.range' alo (ahi - alo)) (fun _ => 0) (alo, blo, 0)
  let back := extBack a b alo blo best.1 best.2.1
  let bi := best.1 - back
  let bj := best.2.1 - back
  let bs := best.2.2 + back
  let fwd := extFwd a b ahi bhi (bi + bs) (bj + bs) ahi
  (bi, bj, bs + fwd)

/-- Total size of the matching blocks produced by `get_matching_blocks`'s
queue-splitting recursion.  (The adjacent-block merge performed there
preserves the total size, and the terminal `(la, lb, 0)` entry adds nothing,
so the ratio only needs this sum.)  `fuel` bounds the recursion depth;
`la + lb + 1` always suffices because every recursive call strictly shrinks
`(ahi - alo) + (bhi - blo)`. -/
def blocksSum (a b : List Char) : ℕ → ℕ → ℕ → ℕ → ℕ → ℕ
  | 0, _, _, _, _ => 0
  | fuel + 1, alo, ahi, blo, bhi =>
      let m := find_longest_match a b alo ahi blo bhi
      if m.2.2 = 0 then 0
      else
        m.2.2 + (if alo < m.1 ∧ blo < m.2.1 then blocksSum a b fuel alo m.1 blo m.2.1 else 0)
              + (if m.1 + m.2.2 < ahi ∧ m.2.1 + m.2.2 < bhi then
                   blocksSum a b fuel (m.1 + m.2.2) ahi (m.2.1 + m.2.2) bhi
                 else 0)

/-- difflib `SequenceMatcher.ratio()`: `2*M / (len(a)+len(b))`, and `1.0`
when both sequences are empty. -/
def ratioOf (a b : List Char) : ℚ :=
  if a.length + b.length = 0 then 1
  else 2 * (blocksSum a b (a.length + b.length + 1) 0 a.length 0 b.length : ℚ)
         / (a.length + b.length)

/-- Model of `_calculate_text_similarity` (`ai_analyzer.py:249`):
`SequenceMatcher(None, text1.lower(), text2.lower()).ratio()` guarded by the
falsy-string check (`if not text1 or not text2: return 0.0`).  The `except`
fallback branch of the source is unreachable — the guarded computation raises
no exception. -/
def calculate_text_similarity (text1 text2 : String) : ℚ :=
  if text1 = "" ∨ text2 = "" then 0
  else ratioOf (pyLower text1).data (pyLower text2).data

/-- Evaluation helper: reduce a concrete similarity value to rational
arithmetic over the (kernel-computable) natural-number match total. -/
lemma sim_eval (t1 t2 : String) (S la lb : ℕ) (h1 : ¬(t1 = "" ∨ t2 = ""))
    (hla : (pyLower t1).data.length = la) (hlb : (pyLower t2).data.length = lb)
    (hS : blocksSum (pyLower t1).data (pyLower t2).data (la + lb + 1) 0 la 0 lb = S)
    (h0 : la + lb ≠ 0) :
    calculate_text_similarity t1 t2 = 2 * (S : ℚ) / ((la : ℚ) + lb) := by
  unfold calculate_text_similarity ratioOf
  rw [if_neg h1, hla, hlb, if_neg h0, hS]

example : calculate_text_similarity "test" "test" = 1 := by
  rw [sim_eval "test" "test" 4 4 4 (by decide) (by decide) (by decide) (by decide) (by decide)]
  norm_num

example : calculate_text_similarity "Test." "test" = 8 / 9 := by
  rw [sim_eval "Test." "test" 4 5 4 (by decide) (by decide) (by decide) (by decide) (by decide)]
  norm_num

example : calculate_text_similarity "ab" "a" = 2 / 3 := by
  rw [sim_eval "ab" "a" 1 2 1 (by decide) (by decide) (by decide) (by decide) (by decide)]
  norm_num

example : calculate_text_similarity "ab" "x" = 0 := by
  rw [sim_eval "ab" "x" 0 2 1 (by decide) (by decide) (by decide) (by decide) (by decide)]
  norm_num

/-! Level analysis (`_perform_audio_analysis`, `ai_analyzer.py:351`–`366`) -/

/-- The `attenuation_db` / `reduction_ratio` fields of the
`level_comparison` record. -/
structure LevelComparison where
  attenuation_db : ℚ
  reduction_ratio : ℚ
  deriving DecidableEq

/-- The attenuation/reduction computation of `_perform_audio_analysis`
(`ai_analyzer.py:351`–`362`).  `log10` is passed as a parameter: the claims
about this code do not depend on the value of the logarithm, only on which
branch is taken, and keeping it abstract keeps the definition executable. -/
def level_comparison (log10 : ℚ → ℚ) (inside_rms outside_rms : ℚ) : LevelComparison :=
  if 0 < inside_rms ∧ 0 < outside_rms then
    if outside_rms ≤ inside_rms then
      { attenuation_db := 20 * log10 (inside_rms / outside_rms)
        reduction_ratio := outside_rms / inside_rms }
    else
      { attenuation_db := -(20 * log10 (outside_rms / inside_rms))
        reduction_ratio := 1 }
  else
    { attenuation_db := 0, reduction_ratio := 0 }

/-- C5: if either channel's RMS equals zero, the level analysis returns
`attenuation_db = 0` and `reduction_ratio = 0`.  The zero branch of the
source contains no division and no logarithm, so no division by zero is
performed and no NaN/Inf can arise in these fields (both are the exact
constant 0). -/
theorem claim_C5_zero_rms (log10 : ℚ → ℚ) (inside_rms outside_rms : ℚ)
    (h : inside_rms = 0 ∨ outside_rms = 0) :
    (level_comparison log10 inside_rms outside_rms).attenuation_db = 0 ∧
    (level_comparison log10 inside_rms outside_rms).reduction_ratio = 0 := by
  have hcond : ¬(0 < inside_rms ∧ 0 < outside_rms) := by
    rcases h with h | h <;> rw [h] <;> intro hc
    · exact lt_irrefl 0 hc.1
    · exact lt_irrefl 0 hc.2
  unfold level_comparison
  rw [if_neg hcond]
  exact ⟨rfl, rfl⟩

theorem claim_C5_witness :
    ((0 : ℚ) = 0 ∨ (1/2 : ℚ) = 0) ∧
    (level_comparison (fun _ => 0) 0 (1/2)).attenuation_db = 0 ∧
    (level_comparison (fun _ => 0) 0 (1/2)).reduction_ratio = 0 :=
  ⟨Or.inl rfl, claim_C5_zero_rms (fun _ => 0) 0 (1/2) (Or.inl rfl)⟩

/-- C6 counterexample: with `inside_rms = 1/2 > 0` and `outside_rms = 1`
(the anomalous case `outside_rms > inside_rms`), the code sets
`reduction_ratio` to the sentinel `1.0`, not to
`outside_rms / inside_rms = 2`. -/
theorem claim_C6_counterexample :
    (level_comparison (fun _ => 0) (1/2) 1).reduction_ratio = 1 ∧
    (level_comparison (fun _ => 0) (1/2) 1).reduction_ratio ≠ (1 : ℚ) / (1/2) := by
  unfold level_comparison
  norm_num

/-- C6 amended: for strictly positive RMS values the level analysis sets
`reduction_ratio = outside_rms / inside_rms` only in the non-anomalous case
`outside_rms ≤ inside_rms`; in the anomalous case `outside_rms > inside_rms`
it sets the sentinel `reduction_ratio = 1.0` instead. -/
theorem claim_C6_amended (log10 : ℚ → ℚ) (inside_rms outside_rms : ℚ) :
    (0 < outside_rms → outside_rms ≤ inside_rms →
      (level_comparison log10 inside_rms outside_rms).reduction_ratio
        = outside_rms / inside_rms) ∧
    (0 < inside_rms → inside_rms < outside_rms →
      (level_comparison log10 inside_rms outside_rms).reduction_ratio = 1) := by
  constructor
  · intro h1 h2
    unfold level_comparison
    rw [if_pos ⟨lt_of_lt_of_le h1 h2, h1⟩, if_pos h2]
  · intro h1 h2
    unfold level_comparison
    rw [if_pos ⟨h1, lt_trans h1 h2⟩, if_neg (not_le.mpr h2)]

theorem claim_C6_witness :
    (level_comparison (fun _ => 0) 2 1).reduction_ratio = (1 : ℚ) / 2 :=
  (claim_C6_amended (fun _ => 0) 2 1).1 (by norm_num) (by norm_num)

/-! Grade assignment (`_score_to_grade`, `ai_analyzer.py:563`–`574`) -/

/-- Model of `_score_to_grade`. -/
def score_to_grade (score : ℚ) : String :=
  if 90 ≤ score then "Отлично (A)"
  else if 75 ≤ score then "Хорошо (B)"
  else if 60 ≤ score then "Удовлетворительно (C)"
  else if 40 ≤ score then "Неудовлетворительно (D)"
  else "Плохо (F)"

/-- C7: the grade assignment uses inclusive lower bounds: `score ≥ 90 → A`,
`90 > score ≥ 75 → B`, `75 > score ≥ 60 → C`, `60 > score ≥ 40 → D`, and
anything lower gives F.  (The witness instantiates the concrete boundary
cases `90.0 → A` and `89.999 → B`.) -/
theorem claim_C7_grade_bands (score : ℚ) :
    (90 ≤ score → score_to_grade score = "Отлично (A)") ∧
    (75 ≤ score ∧ score < 90 → score_to_grade score = "Хорошо (B)") ∧
    (60 ≤ score ∧ score < 75 → score_to_grade score = "Удовлетворительно (C)") ∧
    (40 ≤ score ∧ score < 60 → score_to_grade score = "Неудовлетворительно (D)") ∧
    (score < 40 → score_to_grade score = "Плохо (F)") := by
  refine ⟨fun h => ?_, fun h => ?_, fun h => ?_, fun h => ?_, fun h => ?_⟩ <;>
    unfold score_to_grade
  · rw [if_pos h]
  · rw [if_neg (by linarith [h.2]), if_pos h.1]
  · rw [if_neg (by linarith [h.2]), if_neg (by linarith [h.2]), if_pos h.1]
  · rw [if_neg (by linarith [h.2]), if_neg (by linarith [h.2]),
      if_neg (by linarith [h.2]), if_pos h.1]
  · rw [if_neg (by linarith), if_neg (by linarith), if_neg (by linarith),
      if_neg (by linarith)]

theorem claim_C7_witness :
    score_to_grade 90 = "Отлично (A)" ∧
    score_to_grade (89999/1000) = "Хорошо (B)" :=
  ⟨(claim_C7_grade_bands 90).1 (by norm_num),
   (claim_C7_grade_bands (89999/1000)).2.1 ⟨by norm_num, by norm_num⟩⟩

/-! Composite scores (`_calculate_composite_scores`, `ai_analyzer.py:532`–`561`) -/

/-- The dictionary built by `_calculate_composite_scores`.  Note it has *no*
`correlation_score` and no `spoof_protection_score` entry. -/
structure CompositeScores where
  isolation_score : ℚ
  recognition_score : ℚ
  efficiency_score : ℚ
  total_score : ℚ
  grade : String

/-- Model of `_calculate_composite_scores`, as a function of the three metric values it
reads (`basic.attenuation_db` default 0, `recognition.wer` default 1.0,
`isolation_metrics.isolation_efficiency` default 0.5). -/
def calculate_composite_scores (attenuation wer iso_efficiency : ℚ) : CompositeScores :=
  let isolation_score := min 100 (max 0 (attenuation * 2))
  let wer_score := max 0 (100 - wer * 100)
  let efficiency_score := iso_efficiency * 100
  let total_score := isolation_score * 0.4 + wer_score * 0.3 + efficiency_score * 0.3
  { isolation_score := isolation_score
    recognition_score := wer_score
    efficiency_score := efficiency_score
    total_score := total_score
    grade := score_to_grade total_score }

/-- Modelled from the spec: `correlation_score = clamp(50 - |correlation|*100, 0, 50)`
(no such sub-score exists anywhere in the source; this definition follows the
spec's words only, for comparison). -/
def spec_correlation_score (correlation : ℚ) : ℚ :=
  min 50 (max 0 (50 - |correlation| * 100))

/-- Modelled from the spec:
`spoof_protection_score = 100 * [(valid ? 1.0 : 0.3)*0.5 + match_score*0.3 + confidence*0.2]`
(no such sub-score exists anywhere in the source; this definition follows the
spec's words only, for comparison). -/
def spec_spoof_protection_score (valid : Bool) (match_score confidence : ℚ) : ℚ :=
  100 * ((if valid then (1 : ℚ) else 0.3) * 0.5 + match_score * 0.3 + confidence * 0.2)

/-- C2 counterexample: at attenuation 50 dB, WER 0, isolation efficiency 1,
correlation 0, and a fully valid spoof check (`match_score = confidence = 1`),
the code's `total_score` is 100, while the spec's four-way weighted sum
(isolation 0.4, recognition 0.2, correlation 0.1, spoof 0.3) gives 95.  The
code has no correlation or spoof sub-scores at all. -/
theorem claim_C2_counterexample :
    (calculate_composite_scores 50 0 1).total_score = 100 ∧
    (calculate_composite_scores 50 0 1).total_score ≠
      (calculate_composite_scores 50 0 1).isolation_score * 0.4 +
      (calculate_composite_scores 50 0 1).recognition_score * 0.2 +
      spec_correlation_score 0 * 0.1 +
      spec_spoof_protection_score true 1 1 * 0.3 := by
  unfold calculate_composite_scores spec_correlation_score spec_spoof_protection_score
  norm_num

/-- C2 amended: the composite `total_score` is the weighted sum of the *three*
sub-scores the code actually computes — isolation 0.4, recognition 0.3,
efficiency 0.3; `correlation_score` and `spoof_protection_score` do not
exist in the composite record. -/
theorem claim_C2_amended (attenuation wer iso_efficiency : ℚ) :
    (calculate_composite_scores attenuation wer iso_efficiency).total_score =
      (calculate_composite_scores attenuation wer iso_efficiency).isolation_score * 0.4 +
      (calculate_composite_scores attenuation wer iso_efficiency).recognition_score * 0.3 +
      (calculate_composite_scores attenuation wer iso_efficiency).efficiency_score * 0.3 := rfl

/-! Engine boundary (`analyze_with_audio_analysis` / `_create_error_report`,
`ai_analyzer.py:35`–`112`, `742`–`762`).  The Python `try/except` around the
whole pipeline is modelled by making the pipeline body an `Except`: an
internal exception is an `Except.error` carrying the exception message. -/

/-- The `overall_assessment` record fields relevant to the boundary claim. -/
structure OverallAssessment where
  verdict : String
  color : String
  quality : String
  recommendations : List String
  summary : String
  deriving DecidableEq

/-- The analysis record returned by the engine (fields relevant to the
boundary claim; the timestamp is omitted as nondeterministic I/O). -/
structure AnalysisReport where
  test_name : String
  analysis_type : String
  overall_assessment : OverallAssessment
  deriving DecidableEq

/-- Model of `_create_error_report` (`ai_analyzer.py:742`): the ERROR-state assessment,
whose summary carries the first 100 characters of the exception message. -/
def create_error_report (test_name error_message : String) : AnalysisReport :=
  { test_name := test_name
    analysis_type := "error"
    overall_assessment :=
      { verdict := "ОШИБКА АНАЛИЗА"
        color := "red"
        quality := "неизвестно"
        recommendations :=
          ["Проверьте аудиофайлы", "Убедитесь, что файлы не повреждены",
           "Проверьте установку всех зависимостей"]
        summary := "Произошла ошибка при анализе: " ++ error_message.take 100 } }

/-- Model of `analyze_with_audio_analysis` (`ai_analyzer.py:35`–`112`): the whole body
runs inside `try`; `except Exception` returns `_create_error_report`. -/
def analyze_with_audio_analysis (test_name : String)
    (body : Except String AnalysisReport) : AnalysisReport :=
  match body with
  | Except.ok report => report
  | Except.error e => create_error_report test_name e

/-- C9: the top-level analysis always returns an assessment record: on any
internal failure it returns the ERROR-state report carrying a diagnostic
summary built from the exception message, and on success it returns the
pipeline's report — being a total Lean function, no exception can cross the
boundary. -/
theorem claim_C9_error_boundary (test_name : String)
    (body : Except String AnalysisReport) :
    (∀ e, body = Except.error e →
      analyze_with_audio_analysis test_name body = create_error_report test_name e ∧
      (analyze_with_audio_analysis test_name body).analysis_type = "error" ∧
      (analyze_with_audio_analysis test_name body).overall_assessment.summary
        = "Произошла ошибка при анализе: " ++ e.take 100) ∧
    (∀ r, body = Except.ok r → analyze_with_audio_analysis test_name body = r) := by
  constructor
  · intro e he
    subst he
    exact ⟨rfl, rfl, rfl⟩
  · intro r hr
    subst hr
    rfl

theorem claim_C9_witness :
    analyze_with_audio_analysis "test" (Except.error "boom")
      = create_error_report "test" "boom" ∧
    (analyze_with_audio_analysis "test" (Except.error "boom")).analysis_type = "error" ∧
    (analyze_with_audio_analysis "test" (Except.error "boom")).overall_assessment.summary
      = "Произошла ошибка при анализе: " ++ ("boom").take 100 :=
  (claim_C9_error_boundary "test" (Except.error "boom")).1 "boom" rfl

/-! Word matching (`_count_matching_words`, `ai_analyzer.py:229`–`247`) -/

/-- Inner loop of `_count_matching_words` for one reference word: scan the
recognized words in order; the first full match contributes 1 and stops the
scan, otherwise the first 3-character-prefix match (both words of length at
least 3) contributes 0.5 and stops the scan. -/
def matchContribution (ref_word : String) : List String → ℚ
  | [] => 0
  | w :: ws =>
      if ref_word = w then 1
      else if 3 ≤ ref_word.length ∧ 3 ≤ w.length ∧ ref_word.take 3 = w.take 3 then 1/2
      else matchContribution ref_word ws

/-- Model of `_count_matching_words`: 0 when either list is empty, otherwise the sum of
the per-reference-word contributions. -/
def count_matching_words (ref_words recognized_words : List String) : ℚ :=
  if ref_words = [] ∨ recognized_words = [] then 0
  else (ref_words.map (fun r => matchContribution r recognized_words)).sum

lemma matchContribution_nonneg (r : String) (ws : List String) :
    0 ≤ matchContribution r ws := by
  induction ws with
  | nil => simp [matchContribution]
  | cons w ws ih =>
      unfold matchContribution
      split_ifs <;> norm_num
      exact ih

lemma matchContribution_le_one (r : String) (ws : List String) :
    matchContribution r ws ≤ 1 := by
  induction ws with
  | nil => simp [matchContribution]
  | cons w ws ih =>
      unfold matchContribution
      split_ifs <;> norm_num
      exact ih

lemma sum_matchContribution_bounds (ws : List String) (rs : List String) :
    0 ≤ (rs.map (fun r => matchContribution r ws)).sum ∧
    (rs.map (fun r => matchContribution r ws)).sum ≤ (rs.length : ℚ) := by
  induction rs with
  | nil => simp
  | cons r rs ih =>
      simp only [List.map_cons, List.sum_cons, List.length_cons]
      push_cast
      constructor
      · have := matchContribution_nonneg r ws
        linarith [ih.1]
      · have := matchContribution_le_one r ws
        linarith [ih.2]

/-- C10: the word-matching count `m` satisfies `0 ≤ m ≤ len(ref_words)`
(each reference word contributes at most one match worth at most 1 point),
so any ratio `m / len(ref_words)` lies in `[0, 1]`. -/
theorem claim_C10_match_count_bounds (ref_words recognized_words : List String) :
    (0 ≤ count_matching_words ref_words recognized_words ∧
      count_matching_words ref_words recognized_words ≤ (ref_words.length : ℚ)) ∧
    (ref_words ≠ [] →
      0 ≤ count_matching_words ref_words recognized_words / (ref_words.length : ℚ) ∧
      count_matching_words ref_words recognized_words / (ref_words.length : ℚ) ≤ 1) := by
  have hlen : (0 : ℚ) ≤ (ref_words.length : ℚ) := by positivity
  have hval : 0 ≤ count_matching_words ref_words recognized_words ∧
      count_matching_words ref_words recognized_words ≤ (ref_words.length : ℚ) := by
    unfold count_matching_words
    split_ifs with h
    · exact ⟨le_refl 0, hlen⟩
    · exact sum_matchContribution_bounds recognized_words ref_words
  refine ⟨hval, fun hne => ?_⟩
  have hpos : (0 : ℚ) < (ref_words.length : ℚ) := by
    have : 0 < ref_words.length := List.length_pos.mpr hne
    exact_mod_cast this
  exact ⟨div_nonneg hval.1 hlen, (div_le_one hpos).mpr hval.2⟩

theorem claim_C10_witness :
    (["ab"] : List String) ≠ [] ∧
    (0 ≤ count_matching_words ["ab"] ["x"] / ((["ab"] : List String).length : ℚ) ∧
      count_matching_words ["ab"] ["x"] / ((["ab"] : List String).length : ℚ) ≤ 1) :=
  ⟨by decide, (claim_C10_match_count_bounds ["ab"] ["x"]).2 (by decide)⟩

/-! Case-insensitivity facts about `pyLower` -/

lemma char_le_iff (a b : Char) : a ≤ b ↔ a.toNat ≤ b.toNat := Iff.rfl

lemma char_eq_iff (a b : Char) : a = b ↔ a.toNat = b.toNat := by
  constructor
  · rintro rfl; rfl
  · intro h
    exact Char.ext (UInt32.ext h)

lemma toNat_ofNat_valid (n : ℕ) (h : n.isValidChar) : (Char.ofNat n).toNat = n := by
  simp [Char.ofNat, h, Char.ofNatAux, Char.toNat, UInt32.toNat, BitVec.toNat_ofNatLt]

/-- A character outside all three uppercase ranges is a fixed point of
`pyLowerChar`. -/
lemma pyLowerChar_fixed (r : Char)
    (hna : ¬(65 ≤ r.toNat ∧ r.toNat ≤ 90))
    (hnb : ¬(1040 ≤ r.toNat ∧ r.toNat ≤ 1071))
    (hnc : r.toNat ≠ 1025) :
    pyLowerChar r = r := by
  have eA : ('A').toNat = 65 := rfl
  have eZ : ('Z').toNat = 90 := rfl
  have eCA : ('А').toNat = 1040 := rfl
  have eCJA : ('Я').toNat = 1071 := rfl
  have eJO : ('Ё').toNat = 1025 := rfl
  unfold pyLowerChar
  rw [if_neg, if_neg, if_neg]
  · rw [char_eq_iff, eJO]
    exact hnc
  · intro hc
    rw [char_le_iff, char_le_iff, eCA, eCJA] at hc
    exact hnb hc
  · intro hc
    rw [char_le_iff, char_le_iff, eA, eZ] at hc
    exact hna hc

lemma pyLowerChar_idem (c : Char) : pyLowerChar (pyLowerChar c) = pyLowerChar c := by
  have eA : ('A').toNat = 65 := rfl
  have eZ : ('Z').toNat = 90 := rfl
  have eCA : ('А').toNat = 1040 := rfl
  have eCJA : ('Я').toNat = 1071 := rfl
  by_cases h1 : 'A' ≤ c ∧ c ≤ 'Z'
  · have hb : 65 ≤ c.toNat ∧ c.toNat ≤ 90 :=
      ⟨eA ▸ (char_le_iff 'A' c).mp h1.1, eZ ▸ (char_le_iff c 'Z').mp h1.2⟩
    have hv : (c.toNat + 32).isValidChar := Or.inl (by omega)
    have hval : pyLowerChar c = Char.ofNat (c.toNat + 32) := by
      unfold pyLowerChar; rw [if_pos h1]
    have ht : (pyLowerChar c).toNat = c.toNat + 32 := by
      rw [hval]; exact toNat_ofNat_valid _ hv
    exact pyLowerChar_fixed _ (by omega) (by omega) (by omega)
  · by_cases h2 : 'А' ≤ c ∧ c ≤ 'Я'
    · have hb : 1040 ≤ c.toNat ∧ c.toNat ≤ 1071 :=
        ⟨eCA ▸ (char_le_iff 'А' c).mp h2.1, eCJA ▸ (char_le_iff c 'Я').mp h2.2⟩
      have hv : (c.toNat + 32).isValidChar := Or.inl (by omega)
      have hval : pyLowerChar c = Char.ofNat (c.toNat + 32) := by
        unfold pyLowerChar; rw [if_neg h1, if_pos h2]
      have ht : (pyLowerChar c).toNat = c.toNat + 32 := by
        rw [hval]; exact toNat_ofNat_valid _ hv
      exact pyLowerChar_fixed _ (by omega) (by omega) (by omega)
    · by_cases h3 : c = 'Ё'
      · subst h3; decide
      · have hfix : pyLowerChar c = c := by
          unfold pyLowerChar; rw [if_neg h1, if_neg h2, if_neg h3]
        rw [hfix]
        exact hfix

lemma pyLower_data (s : String) : (pyLower s).data = s.data.map pyLowerChar := rfl

lemma pyLower_eq_empty (s : String) : pyLower s = "" ↔ s = "" := by
  constructor
  · intro h
    cases s with
    | mk data =>
        have hdata : data.map pyLowerChar = ([] : List Char) := congrArg String.data h
        have hd : data = [] := List.map_eq_nil_iff.mp hdata
        subst hd
        rfl
  · intro h; subst h; rfl

lemma pyLower_idem (s : String) : pyLower (pyLower s) = pyLower s := by
  cases s with
  | mk data =>
      unfold pyLower
      simp [List.map_map, Function.comp_def, pyLowerChar_idem]

lemma sim_nonneg (t1 t2 : String) : 0 ≤ calculate_text_similarity t1 t2 := by
  unfold calculate_text_similarity ratioOf
  split_ifs with h1 h2
  · exact le_refl 0
  · norm_num
  · apply div_nonneg <;> positivity

/-! C3 — case/punctuation insensitivity of the text-similarity score -/

/-- C3 counterexample: the similarity is *not* punctuation-insensitive — the
source compares the lowercased raw strings without stripping punctuation, so
`match("Test.", "test") = 8/9` while `match("test", "test") = 1`. -/
theorem claim_C3_counterexample :
    calculate_text_similarity "Test." "test" ≠ calculate_text_similarity "test" "test" ∧
    calculate_text_similarity "Test." "test" = 8 / 9 ∧
    calculate_text_similarity "test" "test" = 1 := by
  have hA : calculate_text_similarity "Test." "test" = 8 / 9 := by
    rw [sim_eval "Test." "test" 4 5 4 (by decide) (by decide) (by decide) (by decide) (by decide)]
    norm_num
  have hB : calculate_text_similarity "test" "test" = 1 := by
    rw [sim_eval "test" "test" 4 4 4 (by decide) (by decide) (by decide) (by decide) (by decide)]
    norm_num
  exact ⟨by rw [hA, hB]; norm_num, hA, hB⟩

/-- C3 amended: the text-similarity score is case-insensitive — both strings
are lowercased before comparison, so lowercasing the inputs does not change
the score — but it is *not* punctuation-insensitive: no punctuation
stripping or whitespace collapsing happens, and
`match("Test.", "test") = 8/9 ≠ 1 = match("test", "test")`. -/
theorem claim_C3_amended (text1 text2 : String) :
    calculate_text_similarity text1 text2
      = calculate_text_similarity (pyLower text1) (pyLower text2) := by
  unfold calculate_text_similarity
  rw [pyLower_idem, pyLower_idem]
  exact if_congr (or_congr (pyLower_eq_empty text1).symm (pyLower_eq_empty text2).symm) rfl rfl

/-! C4 — spoof validation (`_validate_spoken_text`, `ai_analyzer.py:269`–`302`) -/

/-- The fields of the dict returned by `_validate_spoken_text` that the claim
is about. -/
structure TextMatchResult where
  valid : Bool
  match_score : ℚ
  confidence : ℚ
  deriving DecidableEq

/-- Model of `_validate_spoken_text(recognized_text, reference_text, confidence)`:
empty reference or empty recognized text short-circuits to invalid with
`match_score = 0`; otherwise `valid = (match_score >= 0.6) and
(confidence >= 0.5)`.  The `except` branch is unreachable (the similarity
computation raises no exception). -/
def validate_spoken_text (recognized_text reference_text : String)
    (confidence : ℚ) : TextMatchResult :=
  if reference_text = "" ∨ recognized_text = "" then
    { valid := false, match_score := 0, confidence := confidence }
  else
    let match_score := calculate_text_similarity reference_text recognized_text
    { valid := decide (0.6 ≤ match_score ∧ 0.5 ≤ confidence)
      match_score := match_score
      confidence := confidence }

/-- C4: the spoof validation returns `valid = false` whenever the reference is
empty, and for a nonempty reference it returns `valid = true` exactly when
`match_score ≥ 0.6` and `confidence ≥ 0.5` (for empty recognized text the
match score the code reports is 0, so both sides agree there too). -/
theorem claim_C4_valid_iff (recognized_text reference_text : String) (confidence : ℚ) :
    (reference_text = "" →
      (validate_spoken_text recognized_text reference_text confidence).valid = false) ∧
    (reference_text ≠ "" →
      ((validate_spoken_text recognized_text reference_text confidence).valid = true ↔
        0.6 ≤ calculate_text_similarity reference_text recognized_text ∧
          0.5 ≤ confidence)) := by
  constructor
  · intro h
    unfold validate_spoken_text
    rw [if_pos (Or.inl h)]
  · intro h
    by_cases hrec : recognized_text = ""
    · have h0 : calculate_text_similarity reference_text recognized_text = 0 := by
        unfold calculate_text_similarity
        rw [if_pos (Or.inr hrec)]
      unfold validate_spoken_text
      rw [if_pos (Or.inr hrec), h0]
      simp only [Bool.false_eq_true, false_iff, not_and]
      intro hms
      norm_num at hms
    · unfold validate_spoken_text
      rw [if_neg (by tauto)]
      simp only [decide_eq_true_eq]

theorem claim_C4_witness :
    (validate_spoken_text "test" "test" (9/10)).valid = true :=
  ((claim_C4_valid_iff "test" "test" (9/10)).2 (by decide)).mpr
    ⟨by
      rw [sim_eval "test" "test" 4 4 4 (by decide) (by decide) (by decide) (by decide)
          (by decide)]
      norm_num,
     by norm_num⟩

/-! C1 — isolation efficiency (`_assess_room_isolation`, `ai_analyzer.py:145`–`181`) -/

/-- The `isolation_efficiency` computation of `_assess_room_isolation`
(`ai_analyzer.py:145`–`158`): only performed when all three texts are
non-falsy; `1 - outside_similarity/inside_similarity` when
`inside_similarity > 0`, else `0`.  No clamping occurs in the source. -/
def assess_isolation_efficiency (reference_text inside_text outside_text : String) :
    Option ℚ :=
  if inside_text ≠ "" ∧ outside_text ≠ "" ∧ reference_text ≠ "" then
    some (if 0 < calculate_text_similarity reference_text inside_text then
            1 - calculate_text_similarity reference_text outside_text /
                calculate_text_similarity reference_text inside_text
          else 0)
  else none

/-- C1 counterexample: with reference `"ab"`, inside text `"a"`
(`inside_similarity = 2/3 > 0`) and outside text `"ab"`
(`outside_similarity = 1`), the code computes
`isolation_efficiency = 1 - 1/(2/3) = -1/2`, which is not clamped and lies
outside `[0, 1]`. -/
theorem claim_C1_counterexample :
    assess_isolation_efficiency "ab" "a" "ab" = some (-(1/2)) ∧
    ¬(0 ≤ (-(1/2) : ℚ)) := by
  have h1 : calculate_text_similarity "ab" "a" = 2 / 3 := by
    rw [sim_eval "ab" "a" 1 2 1 (by decide) (by decide) (by decide) (by decide) (by decide)]
    norm_num
  have h2 : calculate_text_similarity "ab" "ab" = 1 := by
    rw [sim_eval "ab" "ab" 2 2 2 (by decide) (by decide) (by decide) (by decide) (by decide)]
    norm_num
  constructor
  · unfold assess_isolation_efficiency
    rw [if_pos (by decide), h1, h2, if_pos (by norm_num)]
    norm_num
  · norm_num

/-- C1 amended: when all three texts are nonempty, the isolation assessment
computes `isolation_efficiency = 1 - outside_similarity/inside_similarity`
*without* clamping when the inside similarity is positive (the value is
always ≤ 1 but can be negative when the outside similarity exceeds the
inside similarity), and `isolation_efficiency = 0` when the inside
similarity is 0. -/
theorem claim_C1_amended (reference_text inside_text outside_text : String) (e : ℚ)
    (h : assess_isolation_efficiency reference_text inside_text outside_text = some e) :
    (0 < calculate_text_similarity reference_text inside_text →
      e = 1 - calculate_text_similarity reference_text outside_text /
              calculate_text_similarity reference_text inside_text ∧ e ≤ 1) ∧
    (calculate_text_similarity reference_text inside_text = 0 → e = 0) := by
  unfold assess_isolation_efficiency at h
  split_ifs at h with hg hpos0
  · have he := Option.some.inj h
    constructor
    · intro _
      refine ⟨he.symm, ?_⟩
      have hq : 0 ≤ calculate_text_similarity reference_text outside_text /
          calculate_text_similarity reference_text inside_text :=
        div_nonneg (sim_nonneg _ _) (le_of_lt hpos0)
      rw [← he]
      linarith
    · intro hzero
      rw [hzero] at hpos0
      exact absurd hpos0 (lt_irrefl 0)
  · have he := Option.some.inj h
    constructor
    · intro hpos
      exact absurd hpos hpos0
    · intro _
      exact he.symm

theorem claim_C1_witness :
    (1 : ℚ) = 1 - calculate_text_similarity "ab" "x" / calculate_text_similarity "ab" "ab" ∧
    (1 : ℚ) ≤ 1 :=
  (claim_C1_amended "ab" "ab" "x" 1
    (by
      have h1 : calculate_text_similarity "ab" "ab" = 1 := by
        rw [sim_eval "ab" "ab" 2 2 2 (by decide) (by decide) (by decide) (by decide)
            (by decide)]
        norm_num
      have h2 : calculate_text_similarity "ab" "x" = 0 := by
        rw [sim_eval "ab" "x" 0 2 1 (by decide) (by decide) (by decide) (by decide)
            (by decide)]
        norm_num
      unfold assess_isolation_efficiency
      rw [if_pos (by decide), h1, h2, if_pos (by norm_num)]
      norm_num)).1
    (by
      rw [sim_eval "ab" "ab" 2 2 2 (by decide) (by decide) (by decide) (by decide)
          (by decide)]
      norm_num)

/-! C8 — word error rate (`calculate_wer`, `speech_recognizer.py:363`–`394`) -/

/-- Helper for `pySplit`: accumulate the current word (reversed) while
scanning; whitespace flushes it. -/
def splitAuxW : List Char → List Char → List String
  | [], acc => if acc = [] then [] else [⟨acc.reverse⟩]
  | c :: cs, acc =>
      if c.isWhitespace then
        (if acc = [] then splitAuxW cs [] else ⟨acc.reverse⟩ :: splitAuxW cs [])
      else splitAuxW cs (c :: acc)

/-- Python `str.split()` with no argument: split on runs of whitespace,
discarding empty pieces. -/
def pySplit (s : String) : List String := splitAuxW s.data []

/-- The textbook word-level Levenshtein edit distance (unit-cost insert,
delete, substitute) — the mathematical notion the claim refers to. -/
def lev : List String → List String → ℕ
  | [], ys => ys.length
  | _ :: xs, [] => xs.length + 1
  | x :: xs, y :: ys =>
      if x = y then lev xs ys
      else 1 + min (lev xs (y :: ys)) (min (lev (x :: xs) ys) (lev xs ys))
termination_by xs ys => xs.length + ys.length
decreasing_by all_goals (simp only [List.length_cons]; omega)

lemma lev_nil (ys : List String) : lev [] ys = ys.length := by
  simp [lev]

lemma lev_cons_nil (x : String) (xs : List String) : lev (x :: xs) [] = xs.length + 1 := by
  simp [lev]

lemma lev_cons_cons (x y : String) (xs ys : List String) :
    lev (x :: xs) (y :: ys) =
      if x = y then lev xs ys
      else 1 + min (lev xs (y :: ys)) (min (lev (x :: xs) ys) (lev xs ys)) := by
  simp [lev]

lemma lev_nil_right (xs : List String) : lev xs [] = xs.length := by
  cases xs with
  | nil => simp [lev_nil]
  | cons x xs => simp [lev_cons_nil]

/-- Snoc-form recurrence for the Levenshtein distance: appending one element
to each list satisfies the same three-way minimum recurrence as prepending. -/
lemma lev_snoc (x y : String) : ∀ u v : List String,
    lev (u ++ [x]) (v ++ [y]) =
      if x = y then lev u v
      else 1 + min (lev u (v ++ [y])) (min (lev (u ++ [x]) v) (lev u v)) := by
  have H : ∀ n : ℕ, ∀ u v : List String, u.length + v.length = n →
      lev (u ++ [x]) (v ++ [y]) =
        if x = y then lev u v
        else 1 + min (lev u (v ++ [y])) (min (lev (u ++ [x]) v) (lev u v)) := by
    intro n
    induction n using Nat.strong_induction_on with
    | _ n ih =>
        intro u v hn
        rcases u with _ | ⟨a, u'⟩ <;> rcases v with _ | ⟨b, v'⟩ <;>
          simp only [List.length_cons, List.length_nil] at hn
        · simp only [List.nil_append]
          exact lev_cons_cons x y [] []
        · have hlt : 0 + v'.length < n := by omega
          have h2 := ih (0 + v'.length) hlt [] v' rfl
          simp only [List.nil_append] at h2 ⊢
          simp only [List.cons_append]
          simp only [lev_cons_cons]
          rw [h2]
          simp only [lev_nil, List.length_append, List.length_cons, List.length_nil]
          split_ifs <;> omega
        · have hlt : u'.length + 0 < n := by omega
          have h3 := ih (u'.length + 0) hlt u' [] rfl
          simp only [List.nil_append] at h3 ⊢
          simp only [List.cons_append]
          simp only [lev_cons_cons]
          rw [h3]
          simp only [lev_nil_right, lev_nil, List.length_append, List.length_cons,
            List.length_nil]
          split_ifs <;> omega
        · have hlt1 : u'.length + v'.length < n := by omega
          have hlt2 : u'.length + (v'.length + 1) < n := by omega
          have hlt3 : (u'.length + 1) + v'.length < n := by omega
          have h1 := ih (u'.length + v'.length) hlt1 u' v' rfl
          have h2 := ih (u'.length + (v'.length + 1)) hlt2 u' (b :: v') (by simp)
          have h3 := ih ((u'.length + 1) + v'.length) hlt3 (a :: u') v' (by simp)
          simp only [List.cons_append] at h2 h3 ⊢
          simp only [lev_cons_cons]
          rw [h1, h2, h3]
          split_ifs <;> try rfl
          have key : ∀ p q r : ℕ, (1 + p) ⊓ ((1 + q) ⊓ (1 + r)) = 1 + p ⊓ (q ⊓ r) := by
            intro p q r
            omega
          rw [key, key]
          congr 1
          congr 1
          simp only [← min_assoc]
          simp only [min_comm, min_assoc, min_left_comm]
  intro u v
  exact H (u.length + v.length) u v rfl

/-- One inner step of the Levenshtein DP loop of `calculate_wer`
(`speech_recognizer.py:383`–`391`): `left` is `d[i][j-1]`, the list argument
carries `d[i-1][j-1], d[i-1][j], …`; matching words copy the diagonal,
otherwise `min(substitution, insertion, deletion)` — all plus one.  (The
numpy float matrix of the source holds only small integers, represented
exactly, so `ℕ` entries are faithful.) -/
def rowStep (x : String) (left : ℕ) : List String → List ℕ → List ℕ
  | y :: ys, pdiag :: prest =>
      let pj := prest.headD 0
      let cur := if x = y then pdiag else min (pdiag + 1) (min (left + 1) (pj + 1))
      cur :: rowStep x cur ys prest
  | _, _ => []

/-- One full row of the DP (`d[i][0] = i` then the inner loop). -/
def dpNextRow (x : String) (ys : List String) (prev : List ℕ) : List ℕ :=
  (prev.headD 0 + 1) :: rowStep x (prev.headD 0 + 1) ys prev

/-- The DP of `calculate_wer`: initial row `d[0][j] = j`, one row per
reference word, final answer `d[len(ref)][len(hyp)]`. -/
def dpDist (refW hypW : List String) : ℕ :=
  (refW.foldl (fun row x => dpNextRow x hypW row) (List.range (hypW.length + 1))).getLastD 0

lemma map_range_succ_cons (n : ℕ) (f : ℕ → ℕ) :
    (List.range (n + 1)).map f = f 0 :: (List.range n).map (fun t => f (t + 1)) := by
  rw [List.range_succ_eq_map, List.map_cons, List.map_map]
  rfl

lemma rowStep_spec (x : String) : ∀ (ys qdone p : List String),
    rowStep x (lev (p ++ [x]) qdone) ys
        ((List.range (ys.length + 1)).map (fun t => lev p (qdone ++ ys.take t)))
      = (List.range ys.length).map (fun t => lev (p ++ [x]) (qdone ++ ys.take (t + 1))) := by
  intro ys
  induction ys with
  | nil => intro qdone p; simp [rowStep]
  | cons yy ys ih =>
      intro qdone p
      have hL : (List.range ((yy :: ys).length + 1)).map
            (fun t => lev p (qdone ++ (yy :: ys).take t))
          = lev p qdone ::
            (List.range (ys.length + 1)).map (fun t => lev p ((qdone ++ [yy]) ++ ys.take t)) := by
        rw [List.length_cons, map_range_succ_cons]
        congr 1
        · simp
        · exact List.map_congr_left fun t _ => by
            simp [List.take_succ_cons]
      have hR : (List.range ((yy :: ys).length)).map
            (fun t => lev (p ++ [x]) (qdone ++ (yy :: ys).take (t + 1)))
          = lev (p ++ [x]) (qdone ++ [yy]) ::
            (List.range ys.length).map
              (fun t => lev (p ++ [x]) ((qdone ++ [yy]) ++ ys.take (t + 1))) := by
        rw [List.length_cons, map_range_succ_cons]
        congr 1
        exact List.map_congr_left fun t _ => by
          simp [List.take_succ_cons]
      rw [hL, hR]
      simp only [rowStep]
      have hhead : ((List.range (ys.length + 1)).map
          (fun t => lev p ((qdone ++ [yy]) ++ ys.take t))).headD 0 = lev p (qdone ++ [yy]) := by
        rw [map_range_succ_cons]
        simp
      rw [hhead]
      have hcur : (if x = yy then lev p qdone
          else min (lev p qdone + 1)
            (min (lev (p ++ [x]) qdone + 1) (lev p (qdone ++ [yy]) + 1)))
          = lev (p ++ [x]) (qdone ++ [yy]) := by
        rw [lev_snoc]
        split_ifs <;> omega
      rw [hcur, ih (qdone ++ [yy]) p]

lemma dpNextRow_spec (x : String) (hypW : List String) (p : List String) :
    dpNextRow x hypW ((List.range (hypW.length + 1)).map (fun j => lev p (hypW.take j)))
      = (List.range (hypW.length + 1)).map (fun j => lev (p ++ [x]) (hypW.take j)) := by
  unfold dpNextRow
  have hhead : ((List.range (hypW.length + 1)).map
      (fun j => lev p (hypW.take j))).headD 0 = lev p [] := by
    rw [map_range_succ_cons]
    simp
  rw [hhead]
  have hlen : lev p [] + 1 = lev (p ++ [x]) [] := by
    rw [lev_nil_right, lev_nil_right, List.length_append, List.length_cons, List.length_nil]
  rw [hlen]
  have hs := rowStep_spec x hypW [] p
  simp only [List.nil_append] at hs
  rw [hs, map_range_succ_cons (hypW.length) (fun j => lev (p ++ [x]) (hypW.take j))]
  simp

lemma dpRows (hypW : List String) (p : List String) :
    p.foldl (fun row x => dpNextRow x hypW row) (List.range (hypW.length + 1))
      = (List.range (hypW.length + 1)).map (fun j => lev p (hypW.take j)) := by
  induction p using List.reverseRecOn with
  | nil =>
      simp only [List.foldl_nil, lev_nil]
      have h : ∀ j ∈ List.range (hypW.length + 1), j = (hypW.take j).length := by
        intro j hj
        have := List.mem_range.mp hj
        simp only [List.length_take]
        omega
      calc List.range (hypW.length + 1)
          = (List.range (hypW.length + 1)).map id := by rw [List.map_id]
        _ = (List.range (hypW.length + 1)).map (fun j => (hypW.take j).length) :=
            List.map_congr_left fun j hj => h j hj
  | append_singleton p x ih =>
      rw [List.foldl_append, List.foldl_cons, List.foldl_nil, ih, dpNextRow_spec]

/-- The DP of `calculate_wer` computes exactly the Levenshtein distance of the
two word lists. -/
lemma dpDist_eq_lev (refW hypW : List String) : dpDist refW hypW = lev refW hypW := by
  unfold dpDist
  rw [dpRows hypW refW, List.range_succ, List.map_append, List.map_cons, List.map_nil,
    List.getLastD_concat, List.take_length]

/-- Model of `calculate_wer` (`speech_recognizer.py:363`–`394`): falsy-string guard,
empty-word-list guard, then the Levenshtein DP divided by
`max(len(ref_words), 1)`, capped at 1.0. -/
def calculate_wer (reference hypothesis : String) : ℚ :=
  if reference = "" ∨ hypothesis = "" then 1
  else if pySplit reference = [] then (if pySplit hypothesis = [] then 0 else 1)
  else min ((dpDist (pySplit reference) (pySplit hypothesis) : ℚ)
              / ((max (pySplit reference).length 1 : ℕ) : ℚ)) 1

/-- C8: `calculate_wer` always returns a value in `[0, 1]`, and whenever the
reference has at least one word it returns the word-level Levenshtein edit
distance between the reference and hypothesis word sequences divided by the
reference word count, capped at 1.0.  (For an empty hypothesis string the
early return 1.0 agrees with the formula since `lev refW [] = len refW`.) -/
theorem claim_C8_wer (reference hypothesis : String) :
    (0 ≤ calculate_wer reference hypothesis ∧ calculate_wer reference hypothesis ≤ 1) ∧
    (pySplit reference ≠ [] →
      calculate_wer reference hypothesis
        = min ((lev (pySplit reference) (pySplit hypothesis) : ℚ)
                / ((pySplit reference).length : ℚ)) 1) := by
  constructor
  · unfold calculate_wer
    split_ifs with h1 h2 h3
    · norm_num
    · norm_num
    · norm_num
    · constructor
      · exact le_min (div_nonneg (by positivity) (by positivity)) (by norm_num)
      · exact min_le_right _ _
  · intro hne
    have hrefs : ¬ reference = "" := by
      intro h
      rw [h] at hne
      exact hne rfl
    have hpos : 0 < (pySplit reference).length := List.length_pos.mpr hne
    have hposq : (0 : ℚ) < ((pySplit reference).length : ℚ) := by exact_mod_cast hpos
    unfold calculate_wer
    by_cases h2 : hypothesis = ""
    · rw [if_pos (Or.inr h2), h2]
      have hsplit : pySplit "" = [] := rfl
      rw [hsplit, lev_nil_right]
      rw [div_self (ne_of_gt hposq)]
      norm_num
    · rw [if_neg (by tauto), if_neg hne, dpDist_eq_lev,
        Nat.max_eq_left hpos]

theorem claim_C8_witness :
    pySplit "a b" ≠ [] ∧
    calculate_wer "a b" "a c"
      = min ((lev (pySplit "a b") (pySplit "a c") : ℚ)
              / ((pySplit "a b").length : ℚ)) 1 :=
  ⟨by decide, (claim_C8_wer "a b" "a c").2 (by decide)⟩

end SoundIsolationTester
